import Mathlib

/-!
Verification development for the link-analytics URL-shortener service.

Shallow embedding of the Go backend:
* data model        — backend/models/models.go
* short-code gen    — backend/utils/shortcode.go (GenerateShortCode)
* ingest queue      — handlers.AnalyticsQueue (buffered channel, cap 10000)
* redirect handler  — handlers.HandleRedirect (the L1-cache version wired by
  main.go via PrePopulateL1Cache; it responds with http.StatusFound)
* track handler     — handlers.TrackClick
* store operations  — backend/db/postgres.go
* analytics worker  — backend/workers/analytics_worker.go (flushBatch)
* SSE broker/stream — handlers.SSEBroker, handlers.StreamAnalytics
* analytics read    — handlers.GetAnalytics
* rate limiter      — backend/middleware/ratelimit.go

External effects (SQL, Redis, goroutines, channels) are modelled by explicit
state passing, failure oracles, and ordered effect traces.
-/

namespace LinkAnalytics

/-! ## Data model (backend/models/models.go) -/

/-- `models.Link`: a shortened URL record (`created_at` as an abstract tick). -/
structure Link where
  id : Nat
  shortCode : String
  originalURL : String
  userID : String
  createdAt : Nat
deriving DecidableEq, Repr

/-- `models.ClickEvent`: the transient analytics event. -/
structure ClickEvent where
  shortCode : String
  timestamp : Nat
  ipAddress : String
  userAgent : String
  referer : String
  visitorHash : String
deriving DecidableEq, Repr

/-- `models.LinkStats`: aggregated per-link statistics.  Click counters are
Go `int64` values that are only ever incremented from zero, so they are
modelled as `Nat` (overflow is unreachable for these counters). -/
structure LinkStats where
  shortCode : String
  totalClicks : Nat
  uniqueVisitors : Nat
deriving DecidableEq, Repr

/-! ## Short-code generator (backend/utils/shortcode.go) -/

/-- `shortCodeLength` constant from shortcode.go. -/
def shortCodeLength : Nat := 6

/-- `charset` constant from shortcode.go: the 62 characters `[a-zA-Z0-9]`. -/
def charset : List Char :=
  "abcdefghijklmnopqrstuvwxyzABCDEFGHIJKLMNOPQRSTUVWXYZ0123456789".toList

/-- One position of `GenerateShortCode`: `charset[b % byte(len(charset))]`.
The index is always `< charset.length`, so the `getD` default is dead. -/
def byteToChar (b : Nat) : Char :=
  charset.getD (b % charset.length) 'a'

/-- `utils.GenerateShortCode` on a given random byte string: each output
character is `charset[bytes[i] % 62]`.  The source always supplies
`shortCodeLength = 6` bytes from `crypto/rand`. -/
def generateShortCode (bytes : List Nat) : List Char :=
  bytes.map byteToChar

/-- `GenerateShortCode` as a map on exactly-six-byte inputs, used to count
how many of the `256^6` equally likely input byte strings produce a given
code. -/
def generateCodeFn (bytes : Fin shortCodeLength → Fin 256) : Fin shortCodeLength → Char :=
  fun i => byteToChar (bytes i)

/-- Number of 6-byte inputs that `GenerateShortCode` maps to a given code.
Under uniformly random input bytes the probability of a code is its
preimage count divided by `256^6`. -/
def codePreimageCount (code : Fin shortCodeLength → Char) : Nat :=
  Fintype.card {f : Fin shortCodeLength → Fin 256 // ∀ i, generateCodeFn f i = code i}

/-- The spec's distribution claim: every possible code over the charset is
equally likely, i.e. all preimage counts agree. -/
def uniformlyDistributed : Prop :=
  ∀ c₁ c₂ : Fin shortCodeLength → Char,
    (∀ i, c₁ i ∈ charset) → (∀ i, c₂ i ∈ charset) →
    codePreimageCount c₁ = codePreimageCount c₂

/-! ## Ingest queue (handlers.AnalyticsQueue, part of the redirect handler file)

`var AnalyticsQueue = make(chan models.ClickEvent, 10000)` — a bounded FIFO.
The producer side is the Go `select { case ch <- e: default: }` pattern:
append at the tail when there is room, otherwise drop; never wait.
Consumers receive from the head. -/

/-- Capacity of `AnalyticsQueue`. -/
def queueCapacity : Nat := 10000

/-- Non-blocking offer (`select`/`default` send): returns the new queue and
whether the event was enqueued.  Total in both cases — the producer never
waits. -/
def offerEvent (q : List ClickEvent) (e : ClickEvent) : List ClickEvent × Bool :=
  if q.length < queueCapacity then (q ++ [e], true) else (q, false)

/-- Consumer receive (`<-handlers.AnalyticsQueue`): takes from the head. -/
def takeEvent : List ClickEvent → Option (ClickEvent × List ClickEvent)
  | [] => none
  | e :: rest => some (e, rest)

/-! ## Redirect handler (handlers.HandleRedirect, L1-cache version)

This is the handler compiled into the service: main.go calls
`handlers.PrePopulateL1Cache` which is declared in the same file, and the
load test asserts status 302.  An older copy of redirect.go (Redis-first,
status 301) is superseded by it.

`pgDB.GetLinkByCode` under a `context.WithTimeout` deadline is modelled as
an oracle taking the deadline in milliseconds; `utils.HashVisitor`
(SHA-256) is an external pure function passed as a parameter. -/

/-- Outcome of `pgDB.GetLinkByCode`: row, `*models.NotFoundError`
(`sql.ErrNoRows`), or any other error (timeout / IO failure). -/
inductive PgLinkResult
  | found (link : Link)
  | notFound
  | failure
deriving DecidableEq, Repr

/-- The response head the handler commits: status code and the optional
`Location` header. -/
structure HttpResponse where
  status : Nat
  location : Option String := none
deriving DecidableEq, Repr

/-- Request-scoped values the handler reads (snapshotted before the async
goroutine is spawned). -/
structure RedirectRequest where
  path : String
  ip : String
  userAgent : String
  referer : String
  now : Nat
deriving DecidableEq, Repr

/-- Ordered record of the operations the redirect handler performs.  The
`kvSetAsync` entry marks the point where the write-through goroutine is
spawned; `kvGet` never occurs in this handler (the remote KV is skipped on
the read path). -/
inductive RedirectEffect
  | l1Lookup (code : String)
  | pgQuery (deadlineMs : Nat) (code : String)
  | kvGet (key : String)
  | l1Insert (code url : String)
  | kvSetAsync (key value : String) (ttlSeconds : Nat)
  | respond (r : HttpResponse)
  | offerAccepted (e : ClickEvent)
  | offerDropped (e : ClickEvent)
  | kvIncr (key : String)
deriving DecidableEq, Repr

/-- Everything observable about one handled redirect request. -/
structure RedirectOutcome where
  response : HttpResponse
  trace : List RedirectEffect
  l1After : String → Option String
  queueAfter : List ClickEvent

/-- Short-code extraction inlined in the handler: reject paths of length
`≤ 1`, strip the leading `/`, truncate at the next `/`, reject empty. -/
def extractRedirectCode (path : String) : Option String :=
  let l := path.toList
  if l.length ≤ 1 then none
  else
    let code := (l.drop 1).takeWhile (· ≠ '/')
    if code = [] then none else some (String.mk code)

/-- `SetL1Cache`: store the mapping (the TTL argument is ignored by the
source — entries are stored as plain strings with no expiration). -/
def setL1Cache (l1 : String → Option String) (code url : String) :
    String → Option String :=
  fun c => if c = code then some url else l1 c

/-- The `ClickEvent` built on the redirect/track hot path from the
snapshotted request values. -/
def mkClickEvent (code : String) (req : RedirectRequest)
    (hash : String → String → String) : ClickEvent :=
  ⟨code, req.now, req.ip, req.userAgent, req.referer, hash req.ip req.userAgent⟩

/-- `handlers.HandleRedirect` (the wired, L1-first version).
Control flow: extract code (`404` on empty); L1 lookup; on miss query
PostgreSQL with a 500 ms deadline (`404` on no row, `500` on failure,
remote KV never read); on store success populate L1, spawn the async KV
write-through with a 1 h TTL, then respond `302 Found` with `Location`;
after the response, offer a `ClickEvent` (drop on full) and bump the
realtime KV counter. -/
def handleRedirect (l1 : String → Option String)
    (pg : Nat → String → PgLinkResult) (hash : String → String → String)
    (q : List ClickEvent) (req : RedirectRequest) : RedirectOutcome :=
  match extractRedirectCode req.path with
  | none =>
      { response := ⟨404, none⟩, trace := [.respond ⟨404, none⟩],
        l1After := l1, queueAfter := q }
  | some code =>
    match l1 code with
    | some url =>
        let resp : HttpResponse := ⟨302, some url⟩
        let ev := mkClickEvent code req hash
        let off := offerEvent q ev
        { response := resp,
          trace := [.l1Lookup code, .respond resp,
                    (if off.2 then .offerAccepted ev else .offerDropped ev),
                    .kvIncr ("clicks:realtime:" ++ code)],
          l1After := l1, queueAfter := off.1 }
    | none =>
      match pg 500 code with
      | .notFound =>
          { response := ⟨404, none⟩,
            trace := [.l1Lookup code, .pgQuery 500 code, .respond ⟨404, none⟩],
            l1After := l1, queueAfter := q }
      | .failure =>
          { response := ⟨500, none⟩,
            trace := [.l1Lookup code, .pgQuery 500 code, .respond ⟨500, none⟩],
            l1After := l1, queueAfter := q }
      | .found link =>
          let url := link.originalURL
          let resp : HttpResponse := ⟨302, some url⟩
          let ev := mkClickEvent code req hash
          let off := offerEvent q ev
          { response := resp,
            trace := [.l1Lookup code, .pgQuery 500 code, .l1Insert code url,
                      .kvSetAsync ("link:" ++ code) url 3600, .respond resp,
                      (if off.2 then .offerAccepted ev else .offerDropped ev),
                      .kvIncr ("clicks:realtime:" ++ code)],
            l1After := setL1Cache l1 code url, queueAfter := off.1 }

/-- The resolver outcome embedded in the handler: L1 first, then the
Primary Store under the 500 ms deadline. -/
def resolveUrl (l1 : String → Option String)
    (pg : Nat → String → PgLinkResult) (code : String) : Option String :=
  match l1 code with
  | some url => some url
  | none =>
    match pg 500 code with
    | .found link => some link.originalURL
    | _ => none

/-! ## Track handler (handlers.TrackClick) -/

/-- Go `strings.TrimPrefix`. -/
def trimPre (pre l : List Char) : List Char :=
  if pre.isPrefixOf l then l.drop pre.length else l

/-- Go `strings.TrimSuffix`. -/
def trimSuf (suf l : List Char) : List Char :=
  if suf.isSuffixOf l then l.take (l.length - suf.length) else l

/-- Go `strings.Trim(s, "/")`. -/
def trimSlashes (l : List Char) : List Char :=
  ((l.dropWhile (· = '/')).reverse.dropWhile (· = '/')).reverse

/-- Short-code extraction of `TrackClick`: trim the `/api` and `/track/`
prefixes and surrounding slashes; empty → `400`; then cut at `?` and `#`. -/
def trackCode (path : String) : Option String :=
  let code0 := trimSlashes (trimPre "/track/".toList (trimPre "/api".toList path.toList))
  if code0 = [] then none
  else some (String.mk ((code0.takeWhile (· ≠ '?')).takeWhile (· ≠ '#')))

/-- Result of `TrackClick` (ignoring the method check, which callers of the
route satisfy). -/
inductive TrackResult
  | badRequest
  | notFoundResp
  | serverError
  | tracked
deriving DecidableEq, Repr

/-- `handlers.TrackClick`: extract code (`400` on empty), verify the link
exists via `GetLinkByCode` (`404` / `500`), then offer a `ClickEvent` with
the same non-blocking offer used by the redirect path, bump the realtime
counter, and return `200`. -/
def trackClick (pg : String → PgLinkResult) (hash : String → String → String)
    (q : List ClickEvent) (req : RedirectRequest) :
    TrackResult × List ClickEvent :=
  match trackCode req.path with
  | none => (.badRequest, q)
  | some code =>
    match pg code with
    | .notFound => (.notFoundResp, q)
    | .failure => (.serverError, q)
    | .found _ =>
        let ev := mkClickEvent code req hash
        ((.tracked), (offerEvent q ev).1)

/-! ## Primary Store state and operations (backend/db/postgres.go)

The three tables the analytics pipeline touches.  `linkStats` and
`topReferrers` are keyed maps (`ON CONFLICT` upserts); `clicks` is the
append-only raw event table. -/

structure DBState where
  clicks : List ClickEvent
  linkStats : String → Option LinkStats
  topReferrers : String → String → Option Nat

/-- `BatchInsertClickEvents`: all rows are inserted inside one transaction;
if it fails the deferred rollback leaves the store unchanged (`none`). -/
def batchInsertClickEvents (db : DBState) (events : List ClickEvent)
    (txFails : Bool) : Option DBState :=
  if txFails then none else some { db with clicks := db.clicks ++ events }

/-- `GetLinkStats`: `sql.ErrNoRows` is mapped to a zeroed `LinkStats` row
with a nil error, so an absent row reads as zeros. -/
def getLinkStats (db : DBState) (s : String) : LinkStats :=
  (db.linkStats s).getD ⟨s, 0, 0⟩

/-- `RecalculateUniqueVisitors`:
`SELECT COUNT(DISTINCT visitor_hash) FROM clicks WHERE short_code = s`. -/
def recalculateUniqueVisitors (db : DBState) (s : String) : Nat :=
  (((db.clicks.filter (fun e => e.shortCode = s)).map (·.visitorHash)).dedup).length

/-- `UpdateLinkStats`: `INSERT .. ON CONFLICT DO UPDATE SET
total_clicks = link_stats.total_clicks + $2, unique_visitors = $3`. -/
def updateLinkStats (db : DBState) (s : String) (delta uniq : Nat) : DBState :=
  { db with linkStats := fun t =>
      if t = s then
        some (match db.linkStats s with
          | none => ⟨s, delta, uniq⟩
          | some prev => ⟨s, prev.totalClicks + delta, uniq⟩)
      else db.linkStats t }

/-- `UpdateTopReferrers`: `INSERT .. ON CONFLICT DO UPDATE SET
click_count = top_referrers.click_count + $3`. -/
def updateTopReferrers (db : DBState) (s r : String) (count : Nat) : DBState :=
  { db with topReferrers := fun t u =>
      if t = s ∧ u = r then
        some ((db.topReferrers s r).getD 0 + count)
      else db.topReferrers t u }

/-! ## Analytics worker flush (backend/workers/analytics_worker.go) -/

/-- Worker-pool constants. -/
def NumWorkers : Nat := 10

def BatchSize : Nat := 100

/-- Events of the batch belonging to one short code (the grouping loop). -/
def eventsFor (events : List ClickEvent) (s : String) : List ClickEvent :=
  events.filter (fun e => e.shortCode = s)

/-- The distinct short codes of a batch, in order of first occurrence
(Go map iteration is unordered; every per-code effect below is
order-independent because the updates touch disjoint keys). -/
def batchCodes (events : List ClickEvent) : List String :=
  (events.map (·.shortCode)).dedup

/-- `codeStat.totalClicks` accumulated for `s`: the group size. -/
def batchTotal (events : List ClickEvent) (s : String) : Nat :=
  (eventsFor events s).length

/-- `len(codeStat.uniqueVisitors)`: distinct visitor hashes of the batch
for `s`. -/
def batchUniqueVisitors (events : List ClickEvent) (s : String) : Nat :=
  (((eventsFor events s).map (·.visitorHash)).dedup).length

/-- Distinct non-empty referers of the batch for `s` (an empty referer is
not counted). -/
def batchReferers (events : List ClickEvent) (s : String) : List String :=
  ((((eventsFor events s).filter (fun e => e.referer ≠ "")).map (·.referer)).dedup)

/-- `referrerStats[s][r]`: batch click count for one referer. -/
def batchRefererCount (events : List ClickEvent) (s r : String) : Nat :=
  ((eventsFor events s).filter (fun e => e.referer = r)).length

/-- Failure oracle for the store statements issued during a flush. -/
structure FlushOracle where
  insertFails : Bool
  getStatsFails : String → Bool
  recountFails : String → Bool
  updateStatsFails : String → Bool
  updateReferrerFails : String → String → Bool
  statsReadbackFails : String → Bool

/-- The per-short-code body of the flush loop: read current stats (zeros on
error), recount unique visitors (falling back to `prev + batch-distinct` on
error), upsert `link_stats` (skipped on error), upsert each referer count
(each skipped on error). -/
def flushCode (o : FlushOracle) (events : List ClickEvent) (db : DBState)
    (s : String) : DBState :=
  let current : LinkStats := if o.getStatsFails s then ⟨s, 0, 0⟩ else getLinkStats db s
  let uniq : Nat :=
    if o.recountFails s then current.uniqueVisitors + batchUniqueVisitors events s
    else recalculateUniqueVisitors db s
  let db1 := if o.updateStatsFails s then db
             else updateLinkStats db s (batchTotal events s) uniq
  (batchReferers events s).foldl
    (fun d r => if o.updateReferrerFails s r then d
                else updateTopReferrers d s r (batchRefererCount events s r))
    db1

/-- `flushBatch`: batch-insert all raw events in one transaction (on
failure log and abandon the whole batch — nothing else is applied); then
per short code update the aggregates and, when the post-update stats
read-back succeeds, broadcast `(short_code, total_clicks)` to the broker.
Returns the new store state and the emitted broadcasts. -/
def flushBatch (o : FlushOracle) (db : DBState) (events : List ClickEvent) :
    DBState × List (String × Nat) :=
  if events.isEmpty then (db, [])
  else
    match batchInsertClickEvents db events o.insertFails with
    | none => (db, [])
    | some db1 =>
      (batchCodes events).foldl
        (fun acc s =>
          let db2 := flushCode o events acc.1 s
          (db2,
           if o.statsReadbackFails s then acc.2
           else acc.2 ++ [(s, (getLinkStats db2 s).totalClicks)]))
        (db1, [])

/-! ## SSE broker (handlers.SSEBroker) -/

/-- Mailbox capacity: `clientChan := make(chan []byte, 10)`. -/
def mailboxCapacity : Nat := 10

/-- Broker state: per short code the set of subscribed channels (channels
named by `Nat` handles), plus each channel's buffered FIFO contents.
`clients` models `map[string]map[chan []byte]bool` (the Go code's removal
of an emptied inner map is unobservable here). -/
structure SSEBroker where
  clients : String → List Nat
  mailbox : Nat → List String

/-- `SSEBroker.AddClient`: insert the channel into the set for `s`. -/
def addClient (b : SSEBroker) (s : String) (ch : Nat) : SSEBroker :=
  { b with clients := fun t =>
      if t = s then (if ch ∈ b.clients s then b.clients s else ch :: b.clients s)
      else b.clients t }

/-- `SSEBroker.RemoveClient`: delete the channel from the set for `s`. -/
def removeClient (b : SSEBroker) (s : String) (ch : Nat) : SSEBroker :=
  { b with clients := fun t =>
      if t = s then (b.clients s).filter (· ≠ ch) else b.clients t }

/-- `SSEBroker.Broadcast`: for each subscriber of `s`, a non-blocking
try-send — append the payload when the mailbox has room, otherwise skip
that subscriber only. -/
def broadcast (b : SSEBroker) (s : String) (payload : String) : SSEBroker :=
  { b with mailbox := fun ch =>
      if ch ∈ b.clients s ∧ (b.mailbox ch).length < mailboxCapacity
      then b.mailbox ch ++ [payload]
      else b.mailbox ch }

/-! ## Subscription stream (handlers.StreamAnalytics) -/

/-- Environment of the stream handler: the tables reachable through the
`pgDB`/`redisDB` handles it receives, plus error oracles.  `links` is the
`links` table behind `GetLinkByCode` — the handler never issues that
query. -/
structure StreamEnv where
  links : String → Option Link
  stats : String → Option LinkStats
  realtime : String → Nat
  statsReadFails : Bool
  flusherOk : Bool

/-- The raw short code of `StreamAnalytics`: trim the `/api` and
`/analytics/` prefixes, the `/stream` suffix, and surrounding slashes. -/
def streamCodeRaw (path : String) : List Char :=
  trimSlashes (trimSuf "/stream".toList
    (trimPre "/analytics/".toList (trimPre "/api".toList path.toList)))

/-- How a stream request ends up: `400` for an empty code, `500` when the
writer cannot flush (the mailbox is registered and immediately removed),
or a `200 text/event-stream` whose initial frame carries `initialTotal`
and whose mailbox stays registered for the stream's lifetime. -/
inductive StreamResult
  | badRequest
  | noFlusher (code : String)
  | streaming (code : String) (initialTotal : Nat)
deriving DecidableEq, Repr

/-- HTTP status of a stream outcome (SSE success is an implicit `200`). -/
def streamStatus : StreamResult → Nat
  | .badRequest => 400
  | .noFlusher _ => 500
  | .streaming _ _ => 200

/-- `handlers.StreamAnalytics`: extract the code (`400` when empty), cut at
`?`, register a mailbox with the broker, check the flusher (`500` and
deregister when unsupported), read the initial total — the realtime KV
counter, overridden by `GetLinkStats` whenever that read does not error —
and enter the streaming loop.  Returns the outcome together with the
broker state in which the loop runs.  No `GetLinkByCode` lookup and no
`404` path exist in this handler. -/
def streamAnalytics (env : StreamEnv) (b : SSEBroker) (ch : Nat)
    (path : String) : StreamResult × SSEBroker :=
  let code0 := streamCodeRaw path
  if code0 = [] then (.badRequest, b)
  else
    let code := String.mk (code0.takeWhile (· ≠ '?'))
    let b1 := addClient b code ch
    if env.flusherOk then
      let initial :=
        if env.statsReadFails then env.realtime code
        else ((env.stats code).getD ⟨code, 0, 0⟩).totalClicks
      (.streaming code initial, b1)
    else (.noFlusher code, removeClient b1 code ch)

/-! ## Analytics read endpoint (handlers.GetAnalytics) -/

/-- Go `strings.Split` on a one-character separator. -/
def splitOnChar (sep : Char) : List Char → List (List Char)
  | [] => [[]]
  | c :: rest =>
    let r := splitOnChar sep rest
    if c = sep then [] :: r
    else (c :: r.headD []) :: r.tail

/-- Short-code extraction of `GetAnalytics`: split the trimmed path on `/`
and accept `api/analytics/<code>/..` or `analytics/<code>/..`. -/
def analyticsPathCode (path : String) : Option String :=
  let parts := (splitOnChar '/' (trimSlashes path.toList)).map String.mk
  if 3 ≤ parts.length then
    if parts.getD 0 "" = "api" ∧ parts.getD 1 "" = "analytics" then
      some (parts.getD 2 "")
    else if parts.getD 0 "" = "analytics" then some (parts.getD 1 "")
    else none
  else if 2 ≤ parts.length then
    if parts.getD 0 "" = "analytics" then some (parts.getD 1 "") else none
  else none

/-- The `period` query parameter: empty defaults to `24h`; `24h`/`7d`/`30d`
map to their duration in hours; anything else is a `400`. -/
def parsePeriodHours : String → Option Nat
  | "" => some 24
  | "24h" => some 24
  | "7d" => some (7 * 24)
  | "30d" => some (30 * 24)
  | _ => none

/-- Outcome of `GetAnalytics`, projected to the fields the claims touch
(`total_clicks`, `unique_visitors`); the time-series, referrer list and
rate fields are additional payload of the same `200` response. -/
inductive AnalyticsResult
  | badRequest (msg : String)
  | ok (code : String) (totalClicks uniqueVisitors : Nat)
deriving DecidableEq, Repr

/-- HTTP status of an analytics outcome: the handler writes `400` for a
missing code or invalid period and otherwise always encodes a `200` body. -/
def analyticsStatus : AnalyticsResult → Nat
  | .badRequest _ => 400
  | .ok _ _ _ => 200

/-- Error oracle for the reads `GetAnalytics` performs. -/
structure AnalyticsOracle where
  getStatsFails : Bool
  recountFails : Bool

/-- `handlers.GetAnalytics`: parse code and period (`400` on either), read
`link_stats` (zeros on error and, via `GetLinkStats`, on an absent row),
recount unique visitors when `total_clicks > 0` and the recount succeeds,
and respond `200`.  `links` is the `links` table behind the `pgDB` handle;
the handler never queries it and has no `404` branch. -/
def getAnalytics (db : DBState) (_links : String → Option Link)
    (o : AnalyticsOracle) (path period : String) : AnalyticsResult :=
  match analyticsPathCode path with
  | none => .badRequest "Short code required"
  | some code =>
    match parsePeriodHours period with
    | none => .badRequest "Invalid period"
    | some _hours =>
      let stats0 := if o.getStatsFails then ⟨code, 0, 0⟩ else getLinkStats db code
      let stats :=
        if 0 < stats0.totalClicks ∧ ¬ o.recountFails then
          { stats0 with uniqueVisitors := recalculateUniqueVisitors db code }
        else stats0
      .ok code stats.totalClicks stats.uniqueVisitors

/-! ## Rate-limit middleware (backend/middleware/ratelimit.go) -/

/-- What the middleware does with a request before any Redis traffic:
pass it straight to the next handler (`skip`), run the counter check
(`check`), or hit the out-of-range slice `path[len(path)-7:]` on a
non-empty path shorter than 7 bytes (`panicked`). -/
inductive RateLimitStep
  | skip
  | check
  | panicked
deriving DecidableEq, Repr

/-- The `/stream` literal the middleware compares against. -/
def streamLit : List Char := "/stream".toList

/-- The middleware's dispatch: GET requests with a path other than `/` of
at most 10 bytes are exempted (the redirect-endpoint heuristic); then any
request whose last seven path bytes are `/stream` is exempted; everything
else proceeds to the counter.  Paths are byte strings, modelled as
`List Char`. -/
def rateLimitStep (method : String) (path : List Char) : RateLimitStep :=
  if path ≠ ['/'] ∧ path.length ≤ 10 ∧ method = "GET" then .skip
  else if path ≠ [] then
    if path.length < streamLit.length then .panicked
    else if path.drop (path.length - streamLit.length) = streamLit then .skip
    else .check
  else .check

/-- The Redis commands the middleware issues: the counter `INCR` on
`ratelimit:<ip>:<path>` happens only on the `check` path. -/
def rateLimitRedisOps (method : String) (path : List Char) (ip : String) :
    List String :=
  match rateLimitStep method path with
  | .check => ["INCR ratelimit:" ++ ip ++ ":" ++ String.mk path]
  | _ => []

/-! ## Concrete fixtures used by witnesses and counterexamples -/

/-- An empty store. -/
def dbEmpty : DBState := ⟨[], fun _ => none, fun _ _ => none⟩

/-- A sample click event for short code `abc`. -/
def evA : ClickEvent := ⟨"abc", 0, "1.1.1.1", "agent", "", "h1"⟩

/-- Oracle in which the batch-insert transaction fails. -/
def oInsertFail : FlushOracle :=
  ⟨true, fun _ => false, fun _ => false, fun _ => false, fun _ _ => false, fun _ => false⟩

/-- Oracle in which every store statement succeeds. -/
def oFlushOk : FlushOracle :=
  ⟨false, fun _ => false, fun _ => false, fun _ => false, fun _ _ => false, fun _ => false⟩

/-- An empty broker. -/
def brokerEmpty : SSEBroker := ⟨fun _ => [], fun _ => []⟩

/-- Stream environment with an empty `links` table and working writer. -/
def streamEnvNoLink : StreamEnv :=
  ⟨fun _ => none, fun _ => none, fun _ => 0, false, true⟩

/-- An empty `links` table. -/
def linksEmpty : String → Option Link := fun _ => none

/-- Analytics oracle with all reads succeeding. -/
def oAnalyticsOk : AnalyticsOracle := ⟨false, false⟩

/-- L1 cache fixture resolving `abc`. -/
def l1Demo : String → Option String :=
  fun c => if c = "abc" then some "https://example.com/a" else none

/-- Store fixture in which every lookup misses. -/
def pgDemoMiss : Nat → String → PgLinkResult := fun _ _ => .notFound

/-- Store fixture resolving `xyz`. -/
def pgDemoHit : Nat → String → PgLinkResult :=
  fun _ c => if c = "xyz" then .found ⟨1, "xyz", "https://example.com/x", "u1", 0⟩
             else .notFound

/-- Trivial visitor-hash fixture. -/
def hashDemo : String → String → String := fun ip ua => ip ++ "|" ++ ua

/-- Request fixture for `GET /abc`. -/
def reqDemoAbc : RedirectRequest := ⟨"/abc", "1.1.1.1", "agent", "", 0⟩

/-- Request fixture for `GET /xyz`. -/
def reqDemoXyz : RedirectRequest := ⟨"/xyz", "1.1.1.1", "agent", "", 0⟩

/-! ## Claim theorems -/

/-- **C3.** For every batch flushed by a worker, if the single transaction
that batch-inserts the raw click events fails, the whole batch is
abandoned: the store state is unchanged (no clicks persisted, no
`LinkStats` upsert, no `ReferrerCount` upsert) and no broker broadcast is
emitted for any short code of the batch. -/
theorem flushBatch_abandoned_on_insert_failure (o : FlushOracle)
    (db : DBState) (events : List ClickEvent) (h : o.insertFails = true) :
    flushBatch o db events = (db, []) := by
  unfold flushBatch
  by_cases he : events.isEmpty <;>
    simp [he, batchInsertClickEvents, h]

/-- Witness for C3 at a concrete one-event batch. -/
theorem flushBatch_abandoned_on_insert_failure_witness :
    flushBatch oInsertFail dbEmpty [evA] = (dbEmpty, []) :=
  flushBatch_abandoned_on_insert_failure oInsertFail dbEmpty [evA] rfl

/-- **C5.** The ingest queue is a bounded FIFO of capacity exactly 10 000
(tail enqueue, head dequeue), and the producer operation used on the
redirect and track paths is offer-or-drop: when the queue has free
capacity the event is appended, otherwise it is discarded, and the
operation is total either way (the producer never waits). -/
theorem analyticsQueue_offer_or_drop (q : List ClickEvent) (e : ClickEvent) :
    queueCapacity = 10000 ∧
    (q.length < queueCapacity → offerEvent q e = (q ++ [e], true)) ∧
    (queueCapacity ≤ q.length → offerEvent q e = (q, false)) ∧
    (∀ (x : ClickEvent) (rest : List ClickEvent),
       takeEvent (x :: rest) = some (x, rest)) ∧
    (∀ (l1 : String → Option String) (pg : Nat → String → PgLinkResult)
       (hash : String → String → String) (req : RedirectRequest)
       (code url : String),
       extractRedirectCode req.path = some code → l1 code = some url →
       (handleRedirect l1 pg hash q req).queueAfter =
         (offerEvent q (mkClickEvent code req hash)).1) ∧
    (∀ (pg : String → PgLinkResult) (hash : String → String → String)
       (req : RedirectRequest) (code : String) (link : Link),
       trackCode req.path = some code → pg code = .found link →
       (trackClick pg hash q req).2 =
         (offerEvent q (mkClickEvent code req hash)).1) := by
  refine ⟨rfl, ?_, ?_, ?_, ?_, ?_⟩
  · intro h; simp [offerEvent, h]
  · intro h; simp [offerEvent, Nat.not_lt.mpr h]
  · intro x rest; rfl
  · intro l1 pg hash req code url hex hl1
    simp [handleRedirect, hex, hl1]
  · intro pg hash req code link htc hpg
    simp [trackClick, htc, hpg]

/-- Witness for C5: offer into an empty queue enqueues at the tail. -/
theorem analyticsQueue_offer_or_drop_witness :
    offerEvent [] evA = ([evA], true) :=
  (analyticsQueue_offer_or_drop [] evA).2.1 (by decide)

/-- **C6.** A mailbox registered with the broker for short code `s`
receives every broadcast for `s` issued while it is registered, except
that a broadcast arriving while that mailbox is full (capacity 10) is
skipped for that subscriber only — the per-channel statement holds for
every channel independently, so other subscribers with room still receive
the payload — the broadcast is total (never blocks), registration and
deregistration behave as set insert/delete, and a broadcast touches no
unregistered mailbox and no registration state. -/
theorem broker_broadcast_lossy_delivery (b : SSEBroker) (s : String)
    (payload : String) (ch : Nat) :
    (ch ∈ (addClient b s ch).clients s) ∧
    (ch ∉ (removeClient b s ch).clients s) ∧
    (ch ∈ b.clients s → (b.mailbox ch).length < mailboxCapacity →
       (broadcast b s payload).mailbox ch = b.mailbox ch ++ [payload]) ∧
    (ch ∈ b.clients s → mailboxCapacity ≤ (b.mailbox ch).length →
       (broadcast b s payload).mailbox ch = b.mailbox ch) ∧
    (ch ∉ b.clients s → (broadcast b s payload).mailbox ch = b.mailbox ch) ∧
    ((broadcast b s payload).clients = b.clients) := by
  refine ⟨?_, ?_, ?_, ?_, ?_, rfl⟩
  · by_cases hmem : ch ∈ b.clients s <;> simp [addClient, hmem]
  · simp [removeClient, List.mem_filter]
  · intro h1 h2; simp [broadcast, h1, h2]
  · intro h1 h2; simp [broadcast, Nat.not_lt.mpr h2]
  · intro h1; simp [broadcast, h1]

/-- Witness for C6: a fresh subscriber's empty mailbox receives a
broadcast payload. -/
theorem broker_broadcast_lossy_delivery_witness :
    (broadcast (addClient brokerEmpty "abc" 0) "abc" "p").mailbox 0 = ["p"] := by
  have h := broker_broadcast_lossy_delivery
    (addClient brokerEmpty "abc" 0) "abc" "p" 0
  exact h.2.2.1 (by decide) (by decide)

/-- **C10.** The `RateLimit` middleware exempts every GET request whose
path is not `/` and has at most 10 bytes, and every request whose path
ends in `/stream`; in particular `GET /api/links` (10 bytes) is exempt
even though it is an API route; and an exempted request causes no
rate-limit counter traffic. -/
theorem rateLimit_exemptions (method : String) (path : List Char)
    (ip : String) :
    (method = "GET" → path ≠ ['/'] → path.length ≤ 10 →
       rateLimitStep method path = .skip) ∧
    (∀ pre : List Char, path = pre ++ streamLit →
       rateLimitStep method path = .skip) ∧
    (rateLimitStep "GET" "/api/links".toList = .skip) ∧
    (rateLimitStep method path = .skip → rateLimitRedisOps method path ip = []) := by
  refine ⟨?_, ?_, by decide, ?_⟩
  · intro h1 h2 h3
    simp [rateLimitStep, h1, h2, h3]
  · rintro pre rfl
    by_cases hfirst : (pre ++ streamLit ≠ ['/'] ∧
        (pre ++ streamLit).length ≤ 10 ∧ method = "GET")
    · unfold rateLimitStep
      rw [if_pos hfirst]
    · have hne : pre ++ streamLit ≠ [] := by simp [streamLit]
      have hlen : streamLit.length ≤ (pre ++ streamLit).length := by
        simp [List.length_append]
      have hdrop : (pre ++ streamLit).drop
          ((pre ++ streamLit).length - streamLit.length) = streamLit := by
        rw [List.length_append, Nat.add_sub_cancel]
        exact List.drop_left pre streamLit
      unfold rateLimitStep
      rw [if_neg hfirst, if_pos hne, if_neg (Nat.not_lt.mpr hlen), if_pos hdrop]
  · intro h; simp [rateLimitRedisOps, h]

/-- Witness for C10: `GET /Xy9aBc` (a redirect request) is exempt and
causes no counter traffic. -/
theorem rateLimit_exemptions_witness :
    rateLimitStep "GET" "/Xy9aBc".toList = RateLimitStep.skip ∧
    rateLimitRedisOps "GET" "/Xy9aBc".toList "1.1.1.1" = [] := by
  have h := rateLimit_exemptions "GET" "/Xy9aBc".toList "1.1.1.1"
  have hs := h.1 rfl (by decide) (by decide)
  exact ⟨hs, h.2.2.2 hs⟩

/-- **C1.** For every `GET /<short_code>` request whose short code
resolves to an original URL (through L1 or, on a miss, the Primary
Store), the redirect handler responds with status `302 Found` and a
`Location` header equal to that original URL. -/
theorem handleRedirect_resolved_302 (l1 : String → Option String)
    (pg : Nat → String → PgLinkResult) (hash : String → String → String)
    (q : List ClickEvent) (req : RedirectRequest) (code url : String)
    (hcode : extractRedirectCode req.path = some code)
    (hres : resolveUrl l1 pg code = some url) :
    (handleRedirect l1 pg hash q req).response.status = 302 ∧
    (handleRedirect l1 pg hash q req).response.location = some url := by
  unfold resolveUrl at hres
  cases hl1 : l1 code with
  | some u =>
      rw [hl1] at hres
      cases hres
      simp [handleRedirect, hcode, hl1]
  | none =>
      rw [hl1] at hres
      cases hpg : pg 500 code with
      | found link =>
          rw [hpg] at hres
          cases hres
          simp [handleRedirect, hcode, hl1, hpg]
      | notFound => rw [hpg] at hres; cases hres
      | failure => rw [hpg] at hres; cases hres

/-- Witness for C1: `GET /abc` resolved from L1. -/
theorem handleRedirect_resolved_302_witness :
    (handleRedirect l1Demo pgDemoMiss hashDemo [] reqDemoAbc).response.status = 302 ∧
    (handleRedirect l1Demo pgDemoMiss hashDemo [] reqDemoAbc).response.location =
      some "https://example.com/a" :=
  handleRedirect_resolved_302 l1Demo pgDemoMiss hashDemo [] reqDemoAbc
    "abc" "https://example.com/a" (by decide) (by decide)

/-- **C2.** Redirect-path resolution: an L1 hit returns at once — no store
query, no remote-KV access, L1 unchanged; on an L1 miss the Primary Store
is queried with the hard 500 ms deadline and the remote KV is still never
read; on store success L1 is populated before the response is committed
(trace position 2 versus 4) and the KV write-through is scheduled
asynchronously with a 1 h TTL; a store miss yields 404 and a store
timeout/error yields 500. -/
theorem handleRedirect_resolution_policy (l1 : String → Option String)
    (pg : Nat → String → PgLinkResult) (hash : String → String → String)
    (q : List ClickEvent) (req : RedirectRequest) (code : String)
    (hcode : extractRedirectCode req.path = some code) :
    (∀ url, l1 code = some url →
       (handleRedirect l1 pg hash q req).response = ⟨302, some url⟩ ∧
       (∀ d c, RedirectEffect.pgQuery d c ∉ (handleRedirect l1 pg hash q req).trace) ∧
       (∀ k, RedirectEffect.kvGet k ∉ (handleRedirect l1 pg hash q req).trace) ∧
       (handleRedirect l1 pg hash q req).l1After = l1) ∧
    (l1 code = none →
       RedirectEffect.pgQuery 500 code ∈ (handleRedirect l1 pg hash q req).trace ∧
       (∀ k, RedirectEffect.kvGet k ∉ (handleRedirect l1 pg hash q req).trace)) ∧
    (∀ link, l1 code = none → pg 500 code = .found link →
       (handleRedirect l1 pg hash q req).l1After code = some link.originalURL ∧
       (handleRedirect l1 pg hash q req).trace[2]? =
         some (.l1Insert code link.originalURL) ∧
       (handleRedirect l1 pg hash q req).trace[4]? =
         some (.respond ⟨302, some link.originalURL⟩) ∧
       RedirectEffect.kvSetAsync ("link:" ++ code) link.originalURL 3600 ∈
         (handleRedirect l1 pg hash q req).trace ∧
       (handleRedirect l1 pg hash q req).response = ⟨302, some link.originalURL⟩) ∧
    (l1 code = none → pg 500 code = .notFound →
       (handleRedirect l1 pg hash q req).response.status = 404) ∧
    (l1 code = none → pg 500 code = .failure →
       (handleRedirect l1 pg hash q req).response.status = 500) := by
  refine ⟨?_, ?_, ?_, ?_, ?_⟩
  · intro url hl1
    refine ⟨by simp [handleRedirect, hcode, hl1], ?_, ?_, by simp [handleRedirect, hcode, hl1]⟩
    · intro d c
      simp only [handleRedirect, hcode, hl1]
      split <;> simp
    · intro k
      simp only [handleRedirect, hcode, hl1]
      split <;> simp
  · intro hl1
    refine ⟨?_, ?_⟩
    · cases hpg : pg 500 code <;> simp [handleRedirect, hcode, hl1, hpg]
    · intro k
      cases hpg : pg 500 code <;>
        · simp only [handleRedirect, hcode, hl1, hpg]
          first
            | (split <;> simp)
            | simp
  · intro link hl1 hpg
    refine ⟨?_, ?_, ?_, ?_, ?_⟩ <;>
      simp [handleRedirect, hcode, hl1, hpg, setL1Cache]
  · intro hl1 hpg; simp [handleRedirect, hcode, hl1, hpg]
  · intro hl1 hpg; simp [handleRedirect, hcode, hl1, hpg]

/-- Witness for C2: `GET /xyz` on an empty L1 with a resolving store. -/
theorem handleRedirect_resolution_policy_witness :
    (handleRedirect (fun _ => none) pgDemoHit hashDemo [] reqDemoXyz).l1After "xyz" =
      some "https://example.com/x" := by
  have h := handleRedirect_resolution_policy (fun _ => none) pgDemoHit hashDemo
    [] reqDemoXyz "xyz" (by decide)
  exact (h.2.2.1 ⟨1, "xyz", "https://example.com/x", "u1", 0⟩ rfl (by decide)).1

/-- **C7 counterexample.** The claim says the stream handler first
validates that the short code exists and responds 404 without registering
a subscriber when it does not.  At the concrete request
`GET /api/analytics/zzzzzz/stream` against a store whose `links` table is
empty, the handler streams with status 200 and registers a subscriber for
`zzzzzz` — no 404 and no validation occur. -/
theorem streamAnalytics_streams_unresolved_code :
    streamEnvNoLink.links "zzzzzz" = none ∧
    (streamAnalytics streamEnvNoLink brokerEmpty 0
       "/api/analytics/zzzzzz/stream").1 = .streaming "zzzzzz" 0 ∧
    streamStatus (streamAnalytics streamEnvNoLink brokerEmpty 0
       "/api/analytics/zzzzzz/stream").1 ≠ 404 ∧
    (streamAnalytics streamEnvNoLink brokerEmpty 0
       "/api/analytics/zzzzzz/stream").2.clients "zzzzzz" = [0] := by
  refine ⟨rfl, by decide, by decide, by decide⟩

/-- **C7 amended.** The stream handler performs no existence validation
and has no 404 path: it responds 400 (leaving the broker untouched) only
when the extracted short code is empty; otherwise — with a flush-capable
writer — it registers a subscriber for the code and streams with status
200, regardless of whether the short code resolves (the handler's result
does not depend on the `links` table at all). -/
theorem streamAnalytics_no_validation (env : StreamEnv) (b : SSEBroker)
    (ch : Nat) (path : String) :
    (streamStatus (streamAnalytics env b ch path).1 ≠ 404) ∧
    (streamCodeRaw path = [] →
       streamAnalytics env b ch path = (.badRequest, b)) ∧
    (streamCodeRaw path ≠ [] → env.flusherOk = true →
       streamStatus (streamAnalytics env b ch path).1 = 200 ∧
       (streamAnalytics env b ch path).2 =
         addClient b (String.mk ((streamCodeRaw path).takeWhile (· ≠ '?'))) ch) ∧
    (∀ links2, streamAnalytics { env with links := links2 } b ch path =
       streamAnalytics env b ch path) := by
  refine ⟨?_, ?_, ?_, fun _ => rfl⟩
  · rcases h : (streamAnalytics env b ch path).1 with _ | c | ⟨c, t⟩ <;>
      simp [streamStatus]
  · intro h; simp [streamAnalytics, h]
  · intro h hf
    simp [streamAnalytics, h, hf, streamStatus]

/-- Witness for C7's amended theorem at a concrete stream request. -/
theorem streamAnalytics_no_validation_witness :
    streamStatus (streamAnalytics streamEnvNoLink brokerEmpty 1
      "/api/analytics/abc/stream").1 = 200 := by
  have h := streamAnalytics_no_validation streamEnvNoLink brokerEmpty 1
    "/api/analytics/abc/stream"
  exact (h.2.2.1 (by decide) rfl).1

/-- **C8.** The claim (and the repository's own API documentation) says an
unknown short code on `GET /api/analytics/<code>?period=..` is surfaced as
404.  The handler instead returns 200 with zeroed statistics, because
`GetLinkStats` maps `sql.ErrNoRows` to a zero row with a nil error and the
handler never queries the `links` table: at the concrete failing input
`GET /api/analytics/zzzzzz?period=24h` against an empty store the
response is `200` with `total_clicks = 0`. -/
theorem getAnalytics_unknown_code_200 :
    linksEmpty "zzzzzz" = none ∧
    getAnalytics dbEmpty linksEmpty oAnalyticsOk
      "/api/analytics/zzzzzz" "24h" = .ok "zzzzzz" 0 0 ∧
    analyticsStatus (getAnalytics dbEmpty linksEmpty oAnalyticsOk
      "/api/analytics/zzzzzz" "24h") = 200 := by
  refine ⟨rfl, by decide, by decide⟩

/-! ### Flush frame lemmas for C4 -/

lemma updateTopReferrers_clicks (db : DBState) (s r : String) (c : Nat) :
    (updateTopReferrers db s r c).clicks = db.clicks := rfl

lemma updateTopReferrers_linkStats (db : DBState) (s r : String) (c : Nat) :
    (updateTopReferrers db s r c).linkStats = db.linkStats := rfl

/-- The referer-upsert loop never touches the `clicks` table. -/
lemma refFold_clicks (o : FlushOracle) (ev : List ClickEvent) (s : String)
    (L : List String) (db : DBState) :
    (L.foldl (fun d r => if o.updateReferrerFails s r then d
       else updateTopReferrers d s r (batchRefererCount ev s r)) db).clicks
      = db.clicks := by
  induction L generalizing db with
  | nil => rfl
  | cons r L ih =>
    simp only [List.foldl_cons]
    rw [ih]
    split <;> rfl

/-- The referer-upsert loop never touches `link_stats`. -/
lemma refFold_linkStats (o : FlushOracle) (ev : List ClickEvent) (s : String)
    (L : List String) (db : DBState) :
    (L.foldl (fun d r => if o.updateReferrerFails s r then d
       else updateTopReferrers d s r (batchRefererCount ev s r)) db).linkStats
      = db.linkStats := by
  induction L generalizing db with
  | nil => rfl
  | cons r L ih =>
    simp only [List.foldl_cons]
    rw [ih]
    split <;> rfl

/-- One per-code flush step leaves the `clicks` table unchanged. -/
lemma flushCode_clicks (o : FlushOracle) (ev : List ClickEvent)
    (db : DBState) (s : String) : (flushCode o ev db s).clicks = db.clicks := by
  unfold flushCode
  rw [refFold_clicks]
  split <;> rfl

/-- A flush step for code `s'` leaves `link_stats[s]` unchanged for
`s ≠ s'` (its statements only touch the keys `s'` and `(s', _)`). -/
lemma flushCode_linkStats_other (o : FlushOracle) (ev : List ClickEvent)
    (db : DBState) {s s' : String} (h : s ≠ s') :
    (flushCode o ev db s').linkStats s = db.linkStats s := by
  unfold flushCode
  rw [refFold_linkStats]
  split
  · rfl
  · simp [updateLinkStats, h]

/-- Effect of the flush step for `s` itself on `link_stats[s]`, assuming
the stats read and the upsert succeed. -/
lemma flushCode_linkStats_self (o : FlushOracle) (ev : List ClickEvent)
    (db : DBState) (s : String)
    (hget : o.getStatsFails s = false) (hupd : o.updateStatsFails s = false) :
    (flushCode o ev db s).linkStats s =
      some ⟨s, (getLinkStats db s).totalClicks + batchTotal ev s,
            if o.recountFails s then
              (getLinkStats db s).uniqueVisitors + batchUniqueVisitors ev s
            else recalculateUniqueVisitors db s⟩ := by
  unfold flushCode
  rw [refFold_linkStats]
  simp only [hget, hupd, Bool.false_eq_true, if_false]
  simp only [updateLinkStats, if_pos rfl]
  cases hdb : db.linkStats s <;> simp [getLinkStats, hdb]

/-- Folding flush steps over codes other than `s` leaves `link_stats[s]`
unchanged. -/
lemma flushFold_linkStats_not_mem (o : FlushOracle) (ev : List ClickEvent)
    (s : String) (L : List String) (hs : s ∉ L) :
    ∀ db : DBState,
      (L.foldl (flushCode o ev) db).linkStats s = db.linkStats s := by
  induction L with
  | nil => intro db; rfl
  | cons a L ih =>
    intro db
    simp only [List.foldl_cons]
    rw [ih (fun h => hs (List.mem_cons_of_mem _ h))]
    exact flushCode_linkStats_other o ev db
      (fun he => hs (he ▸ List.mem_cons_self a L))

/-- Folding flush steps preserves the `clicks` table. -/
lemma flushFold_clicks (o : FlushOracle) (ev : List ClickEvent)
    (L : List String) : ∀ db : DBState,
    (L.foldl (flushCode o ev) db).clicks = db.clicks := by
  induction L with
  | nil => intro db; rfl
  | cons a L ih =>
    intro db
    simp only [List.foldl_cons]
    rw [ih, flushCode_clicks]

/-- Folding flush steps over a duplicate-free code list containing `s`
applies the `s`-step exactly once, against the pre-fold `link_stats[s]`
and `clicks`. -/
lemma flushFold_linkStats_mem (o : FlushOracle) (ev : List ClickEvent)
    (s : String) (L : List String)
    (hget : o.getStatsFails s = false) (hupd : o.updateStatsFails s = false) :
    ∀ (_ : L.Nodup) (_ : s ∈ L) (db : DBState),
      (L.foldl (flushCode o ev) db).linkStats s =
        some ⟨s, (getLinkStats db s).totalClicks + batchTotal ev s,
              if o.recountFails s then
                (getLinkStats db s).uniqueVisitors + batchUniqueVisitors ev s
              else recalculateUniqueVisitors db s⟩ := by
  induction L with
  | nil => intro _ hs; cases hs
  | cons a L ih =>
    intro hnd hs db
    simp only [List.foldl_cons]
    rcases List.mem_cons.mp hs with heq | hmem
    · subst heq
      rw [flushFold_linkStats_not_mem o ev s L (List.nodup_cons.mp hnd).1]
      exact flushCode_linkStats_self o ev db s hget hupd
    · have hne : s ≠ a := by
        rintro rfl
        exact (List.nodup_cons.mp hnd).1 hmem
      rw [ih (List.nodup_cons.mp hnd).2 hmem (flushCode o ev db a)]
      have h1 : getLinkStats (flushCode o ev db a) s = getLinkStats db s := by
        unfold getLinkStats
        rw [flushCode_linkStats_other o ev db hne]
      have h2 : recalculateUniqueVisitors (flushCode o ev db a) s
          = recalculateUniqueVisitors db s := by
        unfold recalculateUniqueVisitors
        rw [flushCode_clicks]
      rw [h1, h2]

/-- The broadcast accumulator never influences the stored state: the
pair-fold of `flushBatch` projects onto the plain state fold. -/
lemma flushBatch_fold_fst (o : FlushOracle) (ev : List ClickEvent)
    (L : List String) : ∀ (db : DBState) (bc : List (String × Nat)),
    (L.foldl (fun acc s =>
        let db2 := flushCode o ev acc.1 s
        (db2, if o.statsReadbackFails s then acc.2
              else acc.2 ++ [(s, (getLinkStats db2 s).totalClicks)]))
      (db, bc)).1 = L.foldl (flushCode o ev) db := by
  induction L with
  | nil => intro db bc; rfl
  | cons a L ih =>
    intro db bc
    simp only [List.foldl_cons]
    exact ih _ _

/-- **C4.** On every flush whose raw-event transaction succeeds, for every
short code `s` of the batch whose stats read and upsert succeed,
`LinkStats[s].total_clicks` grows by exactly the number of batch events
for `s`, and `LinkStats[s].unique_visitors` is set to the authoritative
recount `COUNT(DISTINCT visitor_hash)` over the clicks table (which now
contains the batch) — or, when the recount fails, to the previous value
plus the number of distinct visitor hashes for `s` within the batch. -/
theorem flushBatch_updates_linkStats (o : FlushOracle) (db : DBState)
    (events : List ClickEvent) (s : String)
    (hins : o.insertFails = false)
    (hmem : s ∈ batchCodes events)
    (hget : o.getStatsFails s = false)
    (hupd : o.updateStatsFails s = false) :
    getLinkStats (flushBatch o db events).1 s =
      ⟨s, (getLinkStats db s).totalClicks + batchTotal events s,
        if o.recountFails s then
          (getLinkStats db s).uniqueVisitors + batchUniqueVisitors events s
        else
          recalculateUniqueVisitors { db with clicks := db.clicks ++ events } s⟩ := by
  have hne : events ≠ [] := by
    intro h
    rw [h] at hmem
    simp [batchCodes] at hmem
  unfold flushBatch
  rw [if_neg (by simpa [List.isEmpty_iff] using hne)]
  simp only [batchInsertClickEvents, hins, Bool.false_eq_true, if_false]
  rw [flushBatch_fold_fst]
  unfold getLinkStats
  rw [flushFold_linkStats_mem o events s (batchCodes events) hget hupd
    (List.nodup_dedup _) hmem]
  rfl

/-- Witness for C4: flushing a one-event batch for `abc` into an empty
store yields one total click and one unique visitor. -/
theorem flushBatch_updates_linkStats_witness :
    getLinkStats (flushBatch oFlushOk dbEmpty [evA]).1 "abc" = ⟨"abc", 1, 1⟩ := by
  have h := flushBatch_updates_linkStats oFlushOk dbEmpty [evA] "abc"
    rfl (by decide) rfl rfl
  rw [h]
  decide

/-! ### Generator counting lemmas for C9 -/

/-- Preimage counts factor per position: the subtype of byte functions
mapping to a fixed code is equivalent to the product of per-position byte
fibers. -/
lemma codePreimageCount_eq_prod (code : Fin shortCodeLength → Char) :
    codePreimageCount code =
      ∏ i : Fin shortCodeLength,
        Fintype.card {b : Fin 256 // byteToChar b = code i} := by
  rw [codePreimageCount, ← Fintype.card_pi]
  exact Fintype.card_congr
    (@Equiv.subtypePiEquivPi (Fin shortCodeLength) (fun _ => Fin 256)
      (fun i b => byteToChar b.val = code i))

set_option maxRecDepth 100000 in
/-- Bytes mapping to `'a'` (charset index 0): residues `0, 62, 124, 186,
248` — five of them, because `256 = 4·62 + 8`. -/
lemma card_fiber_a : Fintype.card {b : Fin 256 // byteToChar b = 'a'} = 5 := by
  decide

set_option maxRecDepth 100000 in
/-- Bytes mapping to `'9'` (charset index 61): four of them. -/
lemma card_fiber_9 : Fintype.card {b : Fin 256 // byteToChar b = '9'} = 4 := by
  decide

/-- Preimage count of a constant code. -/
lemma codePreimageCount_const (c : Char) :
    codePreimageCount (fun _ => c) =
      (Fintype.card {b : Fin 256 // byteToChar b = c}) ^ shortCodeLength := by
  rw [codePreimageCount_eq_prod]
  rw [show (∏ i : Fin shortCodeLength,
        Fintype.card {b : Fin 256 // byteToChar b.val = (fun _ => c) i})
      = ∏ _i : Fin shortCodeLength,
        Fintype.card {b : Fin 256 // byteToChar b.val = c} from rfl]
  rw [Finset.prod_const, Finset.card_univ, Fintype.card_fin]

lemma codePreimageCount_aaaaaa : codePreimageCount (fun _ => 'a') = 15625 := by
  rw [codePreimageCount_const, card_fiber_a]
  norm_num [shortCodeLength]

lemma codePreimageCount_999999 : codePreimageCount (fun _ => '9') = 4096 := by
  rw [codePreimageCount_const, card_fiber_9]
  norm_num [shortCodeLength]

/-- Each generated character is a member of the charset. -/
lemma byteToChar_mem (b : Nat) : byteToChar b ∈ charset := by
  unfold byteToChar
  have h : b % charset.length < charset.length := Nat.mod_lt _ (by decide)
  rw [List.getD_eq_getElem charset 'a' h]
  exact List.getElem_mem h

/-- **C9 counterexample.** Over uniformly random input bytes the generated
codes are not uniformly distributed: `256 mod 62 = 8 ≠ 0`, so the code
`aaaaaa` has `5^6 = 15625` input byte strings while `999999` has
`4^6 = 4096` — refuting the uniformity part of the claim at these two
concrete codes. -/
theorem generateShortCode_not_uniform :
    codePreimageCount (fun _ => 'a') = 15625 ∧
    codePreimageCount (fun _ => '9') = 4096 ∧
    ¬ uniformlyDistributed := by
  refine ⟨codePreimageCount_aaaaaa, codePreimageCount_999999, fun hu => ?_⟩
  have ha : 'a' ∈ charset := by decide
  have h9 : '9' ∈ charset := by decide
  have h := hu (fun _ => 'a') (fun _ => '9') (fun _ => ha) (fun _ => h9)
  rw [codePreimageCount_aaaaaa, codePreimageCount_999999] at h
  exact absurd h (by norm_num)

/-- **C9 amended.** Every output of the short-code generator has length
exactly 6 and all its characters are drawn from `[a-zA-Z0-9]`; but over
uniformly random input bytes the codes are *not* uniform — each position
is `charset[byte mod 62]`, which favours the first `256 mod 62 = 8`
charset characters, e.g. `aaaaaa` has `5^6` byte preimages against `4^6`
for `999999`. -/
theorem generateShortCode_length_charset_biased (bytes : List Nat)
    (h : bytes.length = shortCodeLength) :
    (generateShortCode bytes).length = 6 ∧
    (∀ c ∈ generateShortCode bytes, c ∈ charset) ∧
    codePreimageCount (fun _ => 'a') = 5 ^ 6 ∧
    codePreimageCount (fun _ => '9') = 4 ^ 6 := by
  refine ⟨?_, ?_, ?_, ?_⟩
  · simpa [generateShortCode, shortCodeLength] using h
  · intro c hc
    rcases List.mem_map.mp hc with ⟨b, _, rfl⟩
    exact byteToChar_mem b
  · rw [codePreimageCount_aaaaaa]; norm_num
  · rw [codePreimageCount_999999]; norm_num

/-- Witness for C9's amended theorem at a concrete six-byte input. -/
theorem generateShortCode_length_charset_biased_witness :
    (generateShortCode [0, 1, 2, 3, 4, 5]).length = 6 :=
  (generateShortCode_length_charset_biased [0, 1, 2, 3, 4, 5] rfl).1

end LinkAnalytics
